import Mathlib

/-!
# Verification of the autodiff / training-loop properties of `pytorch-examples`

The repository is a set of tutorial notebooks exercising a reverse-mode
automatic-differentiation engine, modules and optimizers.  The engine itself
is supplied by an external framework and is not part of the repository's
sources, so (following the repository's own specification, which describes
the conceptual engine the notebooks exercise) the engine is modelled here
from the specification text.  The hand-written numerical code that *is* in
the sources — the two-layer-network backward pass, the `MyReLU` custom
operator and the gradient-descent parameter updates — is embedded directly
from the notebook code.

Numeric values are modelled as rationals; tensors carry a shape and a total
data function, indexed by flat position.
-/

namespace PytorchExamples

/-- A tensor: a shape (ordered sequence of extents) together with numeric
contents addressed by flat index.  Entries at indices beyond the number of
elements are irrelevant junk; the claims are stated about in-range entries
or about total pointwise values where that is harmless. -/
@[ext]
structure Tensor where
  shape : List Nat
  data : Nat → ℚ

/-- Number of elements of a tensor, the product of its extents. -/
def numel (t : Tensor) : Nat := t.shape.prod

/-- Sum of the first `n` entries of a flat data function. -/
def sumData (f : Nat → ℚ) : Nat → ℚ
  | 0 => 0
  | n + 1 => sumData f n + f n

/-- A tensor of ones with the same shape as `t` (the implicit output
gradient that `backward()` creates for scalar roots). -/
def onesLike (t : Tensor) : Tensor := ⟨t.shape, fun _ => 1⟩

/-- Modelled from the spec: the expression language of the differentiable
computations the notebooks build (the repository contains no engine of its
own).  Nodes are user-created leaves, identified by a natural number, and
the operations used by the notebooks: elementwise addition, addition of a
broadcast constant, elementwise multiplication, scaling by a constant, and
the mean reduction. -/
inductive Expr where
  | leaf (id : Nat)
  | addE (a b : Expr)
  | addC (a : Expr) (c : ℚ)
  | mulE (a b : Expr)
  | mulC (a : Expr) (c : ℚ)
  | mean (a : Expr)

/-- An environment assigns to every leaf id the tensor the user created. -/
abbrev Env := Nat → Tensor

/-- Modelled from the spec: the forward pass, a pure function of the leaf
data.  `mean` produces a single-element tensor of shape `[1]`, matching the
notebook output `[torch.FloatTensor of size 1]`. -/
def forward : Expr → Env → Tensor
  | .leaf i, env => env i
  | .addE a b, env =>
      ⟨(forward a env).shape, fun k => (forward a env).data k + (forward b env).data k⟩
  | .addC a c, env =>
      ⟨(forward a env).shape, fun k => (forward a env).data k + c⟩
  | .mulE a b, env =>
      ⟨(forward a env).shape, fun k => (forward a env).data k * (forward b env).data k⟩
  | .mulC a c, env =>
      ⟨(forward a env).shape, fun k => c * (forward a env).data k⟩
  | .mean a, env =>
      ⟨[1], fun _ =>
        sumData (forward a env).data (numel (forward a env)) / (numel (forward a env) : ℚ)⟩

/-- The gradient buffers of the leaves: `none` when a leaf has never
received a gradient (the spec's "optionally owns an accumulated gradient
Tensor"). -/
abbrev GradState := Nat → Option Tensor

/-- The state in which no leaf owns a gradient buffer. -/
def emptyGrads : GradState := fun _ => none

/-- Elementwise sum of two tensors; the existing buffer's shape is kept, as
accumulation never reshapes a buffer. -/
def addT (t g : Tensor) : Tensor := ⟨t.shape, fun k => t.data k + g.data k⟩

/-- Accumulate an incoming gradient onto an optional existing buffer: a
fresh buffer is created when none exists, otherwise the sum is taken. -/
def accT (o : Option Tensor) (g : Tensor) : Tensor :=
  match o with
  | none => g
  | some t => addT t g

/-- Modelled from the spec: "Accumulates (sums) produced gradients into each
input Node's `grad` buffer — gradients are additive across multiple
consumers of the same Node, never overwritten." -/
def accumulate (i : Nat) (g : Tensor) (s : GradState) : GradState :=
  fun j => if j = i then some (accT (s i) g) else s j

/-- Modelled from the spec: the reverse pass.  Each operation's backward
function maps the gradient of its output to one gradient per input, and the
engine visits the recorded operations in reverse order of creation,
accumulating into the leaves.  On the tree embedding the reverse
topological traversal is structural recursion; a node consumed twice
receives the sum of both contributions, exactly the additive-accumulation
rule. -/
def backprop : Expr → Env → Tensor → GradState → GradState
  | .leaf i, _, g, s => accumulate i g s
  | .addE a b, env, g, s => backprop b env g (backprop a env g s)
  | .addC a _, env, g, s => backprop a env g s
  | .mulE a b, env, g, s =>
      backprop b env ⟨g.shape, fun k => g.data k * (forward a env).data k⟩
        (backprop a env ⟨g.shape, fun k => g.data k * (forward b env).data k⟩ s)
  | .mulC a c, env, g, s => backprop a env ⟨g.shape, fun k => c * g.data k⟩ s
  | .mean a, env, g, s =>
      backprop a env
        ⟨(forward a env).shape, fun _ => g.data 0 / (numel (forward a env) : ℚ)⟩ s

/-- Modelled from the spec's error taxonomy: `ShapeMismatch` when the
output gradient's shape disagrees with the root's data shape, `NoGraph`
when backward is requested on a value with no graph (never produced here,
since every leaf of `Expr` is a user-created Variable requiring
gradients). -/
inductive BwdError where
  | shapeMismatch
  | noGraph
deriving DecidableEq

/-- Modelled from the spec: the output gradient used when none is supplied,
"defaults to 1.0 for scalar roots".  For a single-element root it is the
ones tensor of the root's shape; otherwise it is the one-element `1.0`
tensor (the notebook: `out.backward()` is equivalent to
`out.backward(torch.Tensor([1.0]))`), which then fails the shape check. -/
def defaultGradOutput (out : Tensor) : Tensor :=
  if numel out = 1 then onesLike out else ⟨[1], fun _ => 1⟩

/-- The output gradient a backward call effectively uses: the supplied one,
or the default for a missing argument. -/
def effGrad (e : Expr) (env : Env) (gradOutput : Option Tensor) : Tensor :=
  match gradOutput with
  | some g => g
  | none => defaultGradOutput (forward e env)

/-- Modelled from the spec: `backward` checks the output gradient's shape
against the root's data shape, then runs the reverse pass, accumulating
into the existing gradient state. -/
def backward (e : Expr) (env : Env) (gradOutput : Option Tensor) (s : GradState) :
    Except BwdError GradState :=
  if (effGrad e env gradOutput).shape = (forward e env).shape then
    .ok (backprop e env (effGrad e env gradOutput) s)
  else
    .error .shapeMismatch

/-- Modelled from the spec: `zero_grad()` clears every existing gradient
buffer to zero (buffers that were never created stay absent). -/
def zeroGrad (s : GradState) : GradState :=
  fun j => (s j).map (fun t => ⟨t.shape, fun _ => 0⟩)

/-- Whether leaf `i` occurs in the expression, i.e. whether there is a
graph path from the leaf to the root. -/
def occursIn (i : Nat) : Expr → Bool
  | .leaf j => j = i
  | .addE a b => occursIn i a || occursIn i b
  | .addC a _ => occursIn i a
  | .mulE a b => occursIn i a || occursIn i b
  | .mulC a _ => occursIn i a
  | .mean a => occursIn i a

/-- The gradient value at flat index `k` of an optional buffer; an absent
buffer has value `0` everywhere. -/
def gradVal (o : Option Tensor) (k : Nat) : ℚ :=
  match o with
  | none => 0
  | some t => t.data k

/-- The shape of an optional gradient buffer. -/
def optShape (o : Option Tensor) : Option (List Nat) := o.map Tensor.shape

/-- Project the gradient state out of a backward result; an errored pass
yields no gradients. -/
def resultGrads (r : Except BwdError GradState) : GradState :=
  match r with
  | .ok s => s
  | .error _ => emptyGrads

/-- Whether a backward result succeeded. -/
def bwdOk (r : Except BwdError GradState) : Bool :=
  match r with
  | .ok _ => true
  | .error _ => false

/-! ## The `gradients.ipynb` scenario (claim C1)

`x = Variable(torch.ones(2, 2), requires_grad=True)`, `y = x + 2`,
`z = y * y * 3`, `out = z.mean()`, `out.backward()`. -/

/-- The 2×2 tensor of ones that the notebook creates for `x`. -/
def onesEnv : Env := fun _ => ⟨[2, 2], fun _ => 1⟩

/-- `y = x + 2` with `x` the single leaf. -/
def yExpr : Expr := .addC (.leaf 0) 2

/-- `z = y * y * 3`. -/
def zExpr : Expr := .mulC (.mulE yExpr yExpr) 3

/-- `out = z.mean()`. -/
def outExpr : Expr := .mean zExpr

/-! ## Structural lemmas about gradient accumulation -/

/-- Merge an optional gradient increment (the total contribution of one
backward pass) onto an optional existing buffer. -/
def mergeOpt (o d : Option Tensor) : Option Tensor :=
  match d with
  | none => o
  | some gd => some (accT o gd)

theorem addT_assoc (a b c : Tensor) : addT (addT a b) c = addT a (addT b c) :=
  Tensor.ext rfl (funext fun _ => add_assoc _ _ _)

theorem mergeOpt_none_right (o : Option Tensor) : mergeOpt o none = o := rfl

theorem mergeOpt_none_left (d : Option Tensor) : mergeOpt none d = d := by
  cases d <;> rfl

theorem mergeOpt_assoc (a b c : Option Tensor) :
    mergeOpt (mergeOpt a b) c = mergeOpt a (mergeOpt b c) := by
  cases c with
  | none => rfl
  | some gc =>
    cases b with
    | none => rfl
    | some gb =>
      cases a with
      | none => simp only [mergeOpt, accT, Option.some.injEq]
      | some ta => simp only [mergeOpt, accT, Option.some.injEq]; exact addT_assoc ta gb gc

/-- A backward pass acts on the gradient state by merging a state-independent
increment onto every buffer: what it adds to leaf `j` is what a pass from
the empty state leaves at `j`. -/
theorem backprop_shift (e : Expr) (env : Env) :
    ∀ (g : Tensor) (s : GradState) (j : Nat),
      backprop e env g s j = mergeOpt (s j) (backprop e env g emptyGrads j) := by
  induction e with
  | leaf i =>
    intro g s j
    by_cases h : j = i
    · subst h
      simp [backprop, accumulate, emptyGrads, mergeOpt, accT]
    · simp only [backprop, accumulate, if_neg h, emptyGrads, mergeOpt]
  | addE a b iha ihb =>
    intro g s j
    simp only [backprop]
    rw [ihb g (backprop a env g s) j, iha g s j,
      ihb g (backprop a env g emptyGrads) j, iha g emptyGrads j]
    simp only [emptyGrads, mergeOpt_none_left]
    exact mergeOpt_assoc _ _ _
  | addC a c iha => intro g s j; simp only [backprop]; exact iha g s j
  | mulE a b iha ihb =>
    intro g s j
    simp only [backprop]
    rw [ihb _ (backprop a env _ s) j, iha _ s j,
      ihb _ (backprop a env _ emptyGrads) j, iha _ emptyGrads j]
    simp only [emptyGrads, mergeOpt_none_left]
    exact mergeOpt_assoc _ _ _
  | mulC a c iha => intro g s j; simp only [backprop]; exact iha _ s j
  | mean a iha => intro g s j; simp only [backprop]; exact iha _ s j

/-- A backward pass touches no buffer of a leaf that does not occur in the
expression. -/
theorem backprop_untouched (e : Expr) (env : Env) (i : Nat)
    (h : occursIn i e = false) :
    ∀ (g : Tensor) (s : GradState), backprop e env g s i = s i := by
  induction e with
  | leaf j =>
    intro g s
    simp only [occursIn, decide_eq_false_iff_not] at h
    have hne : ¬ i = j := fun hij => h hij.symm
    simp only [backprop, accumulate, if_neg hne]
  | addE a b iha ihb =>
    simp only [occursIn, Bool.or_eq_false_iff] at h
    intro g s
    simp only [backprop]
    rw [ihb h.2, iha h.1]
  | addC a c iha =>
    simp only [occursIn] at h
    intro g s
    simp only [backprop]
    exact iha h g s
  | mulE a b iha ihb =>
    simp only [occursIn, Bool.or_eq_false_iff] at h
    intro g s
    simp only [backprop]
    rw [ihb h.2, iha h.1]
  | mulC a c iha =>
    simp only [occursIn] at h
    intro g s
    simp only [backprop]
    exact iha h _ s
  | mean a iha =>
    simp only [occursIn] at h
    intro g s
    simp only [backprop]
    exact iha h _ s

/-! ## Claims about the backward engine -/

/-- Claim C1: for `y = x + 2`, `z = y*y*3`, `out = mean(z)` over the 2×2
tensor of ones (a leaf requiring gradient), `out.backward()` succeeds and
leaves `grad(x)` a 2×2 tensor whose every entry is `4.5 = 9/2`. -/
theorem c1_mean_scenario_backward_grad :
    bwdOk (backward outExpr onesEnv none emptyGrads) = true ∧
    optShape (resultGrads (backward outExpr onesEnv none emptyGrads) 0) = some [2, 2] ∧
    gradVal (resultGrads (backward outExpr onesEnv none emptyGrads) 0) 0 = 9 / 2 ∧
    gradVal (resultGrads (backward outExpr onesEnv none emptyGrads) 0) 1 = 9 / 2 ∧
    gradVal (resultGrads (backward outExpr onesEnv none emptyGrads) 0) 2 = 9 / 2 ∧
    gradVal (resultGrads (backward outExpr onesEnv none emptyGrads) 0) 3 = 9 / 2 := by
  refine ⟨?_, ?_, ?_, ?_, ?_, ?_⟩ <;>
    norm_num [backward, backprop, accumulate, accT, addT, resultGrads, gradVal, optShape,
      bwdOk, emptyGrads, outExpr, zExpr, yExpr, onesEnv, forward, numel, sumData,
      effGrad, defaultGradOutput, onesLike]

/-- Claim C2: gradient accumulation is additive and never overwrites.  For
every computation, input environment and output gradient, if one backward
call from fresh buffers leaves state `s₁`, a second backward call without
an intervening `zero_grad()` succeeds and leaves every leaf with a buffer
of the same shape holding exactly twice the single-call gradient values. -/
theorem c2_double_backward_doubles_grad (e : Expr) (env : Env) (go : Option Tensor)
    (s₁ : GradState) (h : backward e env go emptyGrads = .ok s₁) :
    ∃ s₂, backward e env go s₁ = .ok s₂ ∧
      ∀ j, optShape (s₂ j) = optShape (s₁ j) ∧
        ∀ k, gradVal (s₂ j) k = 2 * gradVal (s₁ j) k := by
  unfold backward at h
  split at h
  case isFalse => exact absurd h (by simp)
  case isTrue hc =>
    rw [Except.ok.injEq] at h
    subst h
    refine ⟨_, by unfold backward; rw [if_pos hc], ?_⟩
    intro j
    rw [backprop_shift e env _ (backprop e env (effGrad e env go) emptyGrads) j]
    cases hsj : backprop e env (effGrad e env go) emptyGrads j with
    | none => simp [mergeOpt, optShape, gradVal]
    | some t =>
      refine ⟨rfl, fun k => ?_⟩
      simp only [mergeOpt, accT, addT, gradVal]
      ring

/-- Claim C4: `zero_grad()` followed by `backward()` yields the same
gradient values as running the same backward pass from a fresh state with
no gradient history: at every leaf and every flat index the accumulated
gradient entries agree. -/
theorem c4_zero_grad_then_backward_eq_fresh (e : Expr) (env : Env)
    (go : Option Tensor) (s s' s'' : GradState)
    (h1 : backward e env go (zeroGrad s) = .ok s')
    (h2 : backward e env go emptyGrads = .ok s'') :
    ∀ j k, gradVal (s' j) k = gradVal (s'' j) k := by
  unfold backward at h1 h2
  split at h1
  case isFalse => exact absurd h1 (by simp)
  case isTrue hc =>
    rw [Except.ok.injEq] at h1
    rw [if_pos hc, Except.ok.injEq] at h2
    subst h1
    subst h2
    intro j k
    rw [backprop_shift e env _ (zeroGrad s) j]
    cases hsj : s j with
    | none => simp [zeroGrad, hsj, mergeOpt_none_left]
    | some t =>
      cases hdj : backprop e env (effGrad e env go) emptyGrads j with
      | none => simp [zeroGrad, hsj, hdj, mergeOpt, gradVal]
      | some d => simp [zeroGrad, hsj, hdj, mergeOpt, accT, addT, gradVal]

/-- Claim C5: a backward call with an explicitly supplied output gradient
fails with the ShapeMismatch condition exactly when the shape of that
tensor differs from the shape of the root data; on matching shapes no such
error occurs. -/
theorem c5_shape_mismatch_iff (e : Expr) (env : Env) (g : Tensor) (s : GradState) :
    backward e env (some g) s = .error .shapeMismatch ↔
      g.shape ≠ (forward e env).shape := by
  unfold backward effGrad
  by_cases hc : g.shape = (forward e env).shape
  · simp [hc]
  · simp [hc]

/-- Claim C7: on a scalar-valued (single-element) root, `backward()` with
no output-gradient argument behaves exactly as `backward` with the
explicit all-ones gradient of the root shape (the tensor of `1.0`): both
produce the same result, hence the same gradients in every leaf. -/
theorem c7_default_grad_output_scalar (e : Expr) (env : Env) (s : GradState)
    (h : numel (forward e env) = 1) :
    backward e env none s = backward e env (some (onesLike (forward e env))) s := by
  simp only [backward, effGrad, defaultGradOutput, if_pos h]

/-- Claim C8: a leaf with no graph path to the root (it does not occur in
the computation backward is called on) has its gradient buffer untouched
by the backward pass; in particular a leaf with no gradient before the
call has none after it. -/
theorem c8_unrelated_leaf_untouched (e : Expr) (env : Env) (go : Option Tensor)
    (s s' : GradState) (i : Nat) (hocc : occursIn i e = false)
    (h : backward e env go s = .ok s') : s' i = s i := by
  unfold backward at h
  split at h
  case isFalse => exact absurd h (by simp)
  case isTrue =>
    rw [Except.ok.injEq] at h
    subst h
    exact backprop_untouched e env i hocc _ s

/-- The all-ones 2×2 output gradient used to instantiate the engine claims
on a concrete input. -/
def onesGrad22 : Tensor := ⟨[2, 2], fun _ => 1⟩

/-- Witness for claim C2 at the concrete computation `leaf 0` over the 2×2
ones environment. -/
theorem c2_double_backward_doubles_grad_witness :
    ∃ s₂, backward (Expr.leaf 0) onesEnv (some onesGrad22)
        (backprop (Expr.leaf 0) onesEnv onesGrad22 emptyGrads) = .ok s₂ ∧
      ∀ j, optShape (s₂ j) =
          optShape (backprop (Expr.leaf 0) onesEnv onesGrad22 emptyGrads j) ∧
        ∀ k, gradVal (s₂ j) k =
          2 * gradVal (backprop (Expr.leaf 0) onesEnv onesGrad22 emptyGrads j) k :=
  c2_double_backward_doubles_grad (Expr.leaf 0) onesEnv (some onesGrad22) _ rfl

/-- A concrete dirty gradient state: every leaf already owns a 2×2 buffer
full of fives. -/
def dirtyGrads : GradState := fun _ => some ⟨[2, 2], fun _ => 5⟩

/-- Witness for claim C4 at the concrete computation `leaf 0`, starting
from a dirty gradient state. -/
theorem c4_zero_grad_then_backward_eq_fresh_witness :
    gradVal (backprop (Expr.leaf 0) onesEnv onesGrad22 (zeroGrad dirtyGrads) 0) 0 =
      gradVal (backprop (Expr.leaf 0) onesEnv onesGrad22 emptyGrads 0) 0 :=
  c4_zero_grad_then_backward_eq_fresh (Expr.leaf 0) onesEnv (some onesGrad22)
    dirtyGrads _ _ rfl rfl 0 0

/-- Witness for claim C7 at the concrete scalar root `mean (leaf 0)`. -/
theorem c7_default_grad_output_scalar_witness :
    numel (forward (Expr.mean (Expr.leaf 0)) onesEnv) = 1 ∧
      backward (Expr.mean (Expr.leaf 0)) onesEnv none dirtyGrads =
        backward (Expr.mean (Expr.leaf 0)) onesEnv
          (some (onesLike (forward (Expr.mean (Expr.leaf 0)) onesEnv))) dirtyGrads :=
  ⟨rfl, c7_default_grad_output_scalar (Expr.mean (Expr.leaf 0)) onesEnv dirtyGrads rfl⟩

/-- Witness for claim C8: backward on the root `leaf 0` leaves the buffer
of the unrelated leaf `1` untouched (absent before, absent after). -/
theorem c8_unrelated_leaf_untouched_witness :
    backprop (Expr.leaf 0) onesEnv onesGrad22 emptyGrads 1 = emptyGrads 1 :=
  c8_unrelated_leaf_untouched (Expr.leaf 0) onesEnv (some onesGrad22)
    emptyGrads _ 1 rfl rfl

/-! ## Parameters and the gradient-descent update (claims C3 and C6)

Embedded from the notebook code: `w1.data -= lr * w1.grad.data` and
`param.data.sub_(param.grad.data * learning_rate)`. -/

/-- A parameter Node as the optimizer sees it: its data tensor and its
accumulated gradient tensor. -/
@[ext]
structure Param where
  data : Tensor
  grad : Tensor

/-- The in-place gradient-descent update of the notebooks, applied to every
parameter of the sequence: `param.data.sub_(param.grad.data * learning_rate)`.
The gradient buffers are left exactly as they were. -/
def sgdStep (lr : ℚ) (ps : List Param) : List Param :=
  ps.map fun p =>
    ⟨⟨p.data.shape, fun k => p.data.data k - p.grad.data k * lr⟩, p.grad⟩

/-- Modelled from the spec: a parameter paired with the algorithm-specific
state of a momentum optimizer, its velocity buffer. -/
structure MomParam where
  param : Param
  vel : Tensor

/-- Modelled from the spec: constructing a momentum optimizer over a fixed
parameter sequence creates one zero velocity buffer per parameter. -/
def momInit (ps : List Param) : List MomParam :=
  ps.map fun p => ⟨p, ⟨p.grad.shape, fun _ => 0⟩⟩

/-- Modelled from the spec: one momentum-descent step; each velocity
buffer absorbs the current gradient and the data moves, in place, against
the updated velocity scaled by the learning rate. -/
def momStep (lr mu : ℚ) (ms : List MomParam) : List MomParam :=
  ms.map fun m =>
    ⟨⟨⟨m.param.data.shape,
        fun k => m.param.data.data k - (mu * m.vel.data k + m.param.grad.data k) * lr⟩,
      m.param.grad⟩,
      ⟨m.vel.shape, fun k => mu * m.vel.data k + m.param.grad.data k⟩⟩

/-- Claim C3: for every parameter sequence, learning rate and gradient
values, the optimizer step rewrites, in place, every parameter data entry
to `data - lr * grad`, and mutates nothing else: the parameter count is
unchanged, the data shape is kept, and the gradient buffer is returned
untouched. -/
theorem c3_sgd_step_update (lr : ℚ) (ps : List Param) (j : Nat) (p : Param)
    (h : ps[j]? = some p) :
    (sgdStep lr ps).length = ps.length ∧
      (sgdStep lr ps)[j]? =
        some ⟨⟨p.data.shape, fun k => p.data.data k - lr * p.grad.data k⟩, p.grad⟩ := by
  refine ⟨by simp [sgdStep], ?_⟩
  simp only [sgdStep, List.getElem?_map, h, Option.map_some']
  refine congrArg some (Param.ext (Tensor.ext rfl (funext fun k => by ring)) rfl)

/-- Claim C6 as amended: a step taken while every gradient buffer is zero
is a no-op on the parameter data, not an error — for the plain
gradient-descent update of the notebooks over any parameter sequence, and
for an optimizer with algorithm-specific state when that state is the one
construction creates (a momentum optimizer freshly constructed over the
parameters, with zero velocity buffers).  The original claim, over *any*
optimizer state, fails: a momentum optimizer whose velocity buffers are
nonzero moves the data even under zero gradients (see the counterexample
below). -/
theorem c6_zero_grad_step_noop (lr mu : ℚ) (ps : List Param)
    (hz : ∀ (j : Nat) (p : Param), ps[j]? = some p → ∀ k, p.grad.data k = 0) :
    ∀ (j : Nat), ((sgdStep lr ps)[j]?).map Param.data = (ps[j]?).map Param.data ∧
      ((momStep lr mu (momInit ps))[j]?).map (fun (m : MomParam) => m.param.data) =
        (ps[j]?).map Param.data := by
  intro j
  cases hj : ps[j]? with
  | none =>
    simp only [sgdStep, momStep, momInit, List.getElem?_map, hj, Option.map_none']
    exact ⟨trivial, trivial⟩
  | some p =>
    have hg := hz j p hj
    constructor
    · simp only [sgdStep, List.getElem?_map, hj, Option.map_some']
      refine congrArg some (Tensor.ext rfl (funext fun k => ?_))
      show p.data.data k - p.grad.data k * lr = p.data.data k
      rw [hg k]; ring
    · simp only [momStep, momInit, List.getElem?_map, hj, Option.map_some']
      refine congrArg some (Tensor.ext rfl (funext fun k => ?_))
      show p.data.data k - (mu * 0 + p.grad.data k) * lr = p.data.data k
      rw [hg k]; ring

/-- A concrete parameter: data `[7]`, gradient `[3]`. -/
def paramSeven : Param := ⟨⟨[1], fun _ => 7⟩, ⟨[1], fun _ => 3⟩⟩

/-- A concrete parameter with a zero gradient buffer. -/
def paramZeroGrad : Param := ⟨⟨[1], fun _ => 7⟩, ⟨[1], fun _ => 0⟩⟩

/-- Witness for claim C3 on a one-parameter sequence with learning rate 2. -/
theorem c3_sgd_step_update_witness :
    (sgdStep 2 [paramSeven]).length = [paramSeven].length ∧
      (sgdStep 2 [paramSeven])[0]? =
        some ⟨⟨paramSeven.data.shape,
          fun k => paramSeven.data.data k - 2 * paramSeven.grad.data k⟩,
          paramSeven.grad⟩ :=
  c3_sgd_step_update 2 [paramSeven] 0 paramSeven rfl

/-- A momentum-optimizer entry with accumulated (stale, nonzero) velocity:
data `[7]`, gradient `[0]`, velocity `[4]` — the state a momentum
optimizer reaches after earlier steps with nonzero gradients. -/
def momParamStale : MomParam := ⟨⟨⟨[1], fun _ => 7⟩, ⟨[1], fun _ => 0⟩⟩, ⟨[1], fun _ => 4⟩⟩

/-- Counterexample to claim C6 as originally stated: for an optimizer with
algorithm-specific state that is not fresh — a momentum optimizer whose
velocity buffer holds `4` — a step under an all-zero gradient buffer is
not a no-op: with learning rate `1` and momentum `1/2` the parameter data
moves from `7` to `7 - (1/2 · 4 + 0) · 1 = 5`. -/
theorem c6_zero_grad_step_noop_counterexample :
    momParamStale.param.grad = ⟨[1], fun _ => 0⟩ ∧
    ((momStep 1 (1 / 2) [momParamStale])[0]?).map
        (fun (m : MomParam) => m.param.data.data 0) = some 5 ∧
    ([momParamStale][0]?).map (fun (m : MomParam) => m.param.data.data 0) = some 7 := by
  refine ⟨rfl, ?_, rfl⟩
  norm_num [momStep, momParamStale, List.getElem?_map]

/-- Witness for claim C6 (as amended) on a one-parameter sequence whose
gradient buffer is zero. -/
theorem c6_zero_grad_step_noop_witness :
    ((sgdStep 2 [paramZeroGrad])[0]?).map Param.data =
        ([paramZeroGrad][0]?).map Param.data ∧
      ((momStep 2 (1 / 2) (momInit [paramZeroGrad]))[0]?).map (fun (m : MomParam) => m.param.data) =
        ([paramZeroGrad][0]?).map Param.data :=
  c6_zero_grad_step_noop 2 (1 / 2) [paramZeroGrad]
    (fun j p h k => by
      match j, h with
      | 0, h => cases h; rfl) 0

/-! ## The hand-written two-layer-network backward pass (claim C9)

Embedded from `01 - Tensors.ipynb`: `h = x.dot(w1)`,
`h_relu = np.maximum(h, 0)`, `y_pred = h_relu.dot(w2)`,
`loss = np.square(y_pred - y).sum()`, and the manual backward pass
`grad_y_pred = 2.0 * (y_pred - y)`, `grad_w2 = h_relu.T.dot(grad_y_pred)`,
`grad_h_relu = grad_y_pred.dot(w2.T)`, `grad_h[h < 0] = 0`,
`grad_w1 = x.T.dot(grad_h)`. -/

section TwoLayer

variable {nb din dh dout : ℕ}

/-- `h = x.dot(w1)`. -/
def hMat (x : Matrix (Fin nb) (Fin din) ℚ) (w1 : Matrix (Fin din) (Fin dh) ℚ) :
    Matrix (Fin nb) (Fin dh) ℚ := x * w1

/-- `h_relu = np.maximum(h, 0)`. -/
def hReluMat (x : Matrix (Fin nb) (Fin din) ℚ) (w1 : Matrix (Fin din) (Fin dh) ℚ) :
    Matrix (Fin nb) (Fin dh) ℚ := Matrix.of fun n i => max (hMat x w1 n i) 0

/-- `y_pred = h_relu.dot(w2)`. -/
def yPredMat (x : Matrix (Fin nb) (Fin din) ℚ) (w1 : Matrix (Fin din) (Fin dh) ℚ)
    (w2 : Matrix (Fin dh) (Fin dout) ℚ) : Matrix (Fin nb) (Fin dout) ℚ :=
  hReluMat x w1 * w2

/-- `grad_y_pred = 2.0 * (y_pred - y)`. -/
def gradYPredMat (x : Matrix (Fin nb) (Fin din) ℚ) (y : Matrix (Fin nb) (Fin dout) ℚ)
    (w1 : Matrix (Fin din) (Fin dh) ℚ) (w2 : Matrix (Fin dh) (Fin dout) ℚ) :
    Matrix (Fin nb) (Fin dout) ℚ :=
  Matrix.of fun n j => 2 * (yPredMat x w1 w2 n j - y n j)

/-- `grad_w2 = h_relu.T.dot(grad_y_pred)`. -/
def gradW2Mat (x : Matrix (Fin nb) (Fin din) ℚ) (y : Matrix (Fin nb) (Fin dout) ℚ)
    (w1 : Matrix (Fin din) (Fin dh) ℚ) (w2 : Matrix (Fin dh) (Fin dout) ℚ) :
    Matrix (Fin dh) (Fin dout) ℚ :=
  (hReluMat x w1).transpose * gradYPredMat x y w1 w2

/-- `grad_h_relu = grad_y_pred.dot(w2.T)`. -/
def gradHReluMat (x : Matrix (Fin nb) (Fin din) ℚ) (y : Matrix (Fin nb) (Fin dout) ℚ)
    (w1 : Matrix (Fin din) (Fin dh) ℚ) (w2 : Matrix (Fin dh) (Fin dout) ℚ) :
    Matrix (Fin nb) (Fin dh) ℚ :=
  gradYPredMat x y w1 w2 * w2.transpose

/-- `grad_h = grad_h_relu.copy(); grad_h[h < 0] = 0`. -/
def gradHMat (x : Matrix (Fin nb) (Fin din) ℚ) (y : Matrix (Fin nb) (Fin dout) ℚ)
    (w1 : Matrix (Fin din) (Fin dh) ℚ) (w2 : Matrix (Fin dh) (Fin dout) ℚ) :
    Matrix (Fin nb) (Fin dh) ℚ :=
  Matrix.of fun n i => if hMat x w1 n i < 0 then 0 else gradHReluMat x y w1 w2 n i

/-- `grad_w1 = x.T.dot(grad_h)`. -/
def gradW1Mat (x : Matrix (Fin nb) (Fin din) ℚ) (y : Matrix (Fin nb) (Fin dout) ℚ)
    (w1 : Matrix (Fin din) (Fin dh) ℚ) (w2 : Matrix (Fin dh) (Fin dout) ℚ) :
    Matrix (Fin din) (Fin dh) ℚ :=
  x.transpose * gradHMat x y w1 w2

/-- `loss = np.square(y_pred - y).sum()`, the summed squared error. -/
def sseLoss (x : Matrix (Fin nb) (Fin din) ℚ) (y : Matrix (Fin nb) (Fin dout) ℚ)
    (w1 : Matrix (Fin din) (Fin dh) ℚ) (w2 : Matrix (Fin dh) (Fin dout) ℚ) : ℚ :=
  ∑ n, ∑ j, (yPredMat x w1 w2 n j - y n j) ^ 2

theorem sum_swap₃ {M : Type} [AddCommMonoid M] {a b c : ℕ}
    (f : Fin a → Fin b → Fin c → M) :
    ∑ i, ∑ j, ∑ n, f i j n = ∑ n, ∑ j, ∑ i, f i j n := by
  have h1 : ∀ i : Fin a, ∑ j, ∑ n, f i j n = ∑ n, ∑ j, f i j n :=
    fun i => Finset.sum_comm
  have h2 : ∀ n : Fin c, ∑ i, ∑ j, f i j n = ∑ j, ∑ i, f i j n :=
    fun n => Finset.sum_comm
  simp only [h1]
  rw [Finset.sum_comm]
  simp only [h2]

/-- The Frobenius inner product of the computed `grad_w2` with a direction
`E` equals the first-order coefficient of the loss along `E`. -/
theorem gradW2_inner (x : Matrix (Fin nb) (Fin din) ℚ) (y : Matrix (Fin nb) (Fin dout) ℚ)
    (w1 : Matrix (Fin din) (Fin dh) ℚ) (w2 : Matrix (Fin dh) (Fin dout) ℚ)
    (E : Matrix (Fin dh) (Fin dout) ℚ) :
    ∑ i, ∑ j, gradW2Mat x y w1 w2 i j * E i j =
      ∑ n, ∑ j, 2 * (yPredMat x w1 w2 n j - y n j) * (hReluMat x w1 * E) n j := by
  simp only [gradW2Mat, gradYPredMat, Matrix.mul_apply, Matrix.transpose_apply,
    Matrix.of_apply, Finset.sum_mul, Finset.mul_sum]
  rw [sum_swap₃]
  exact Finset.sum_congr rfl fun n _ => Finset.sum_congr rfl fun j _ =>
    Finset.sum_congr rfl fun i _ => by ring

/-- Claim C9: the hand-written backward pass of the two-layer network
computes the exact analytic gradient of the summed squared-error loss.
For every `x`, `y`, `w1`, `w2`: the computed `grad_w2` equals
`h_reluᵀ · (2 (y_pred − y))` entrywise; the computed `grad_w1` equals
`xᵀ · g` where `g = 2 (y_pred − y) · w2ᵀ` with entries zeroed exactly where
`h < 0`; and along every direction `E` in `w2` the loss expands as
`loss + t·⟨grad_w2, E⟩ + t²·(positive quadratic)`, so `grad_w2` is the
true gradient of the loss in the smooth coordinates. -/
theorem c9_two_layer_backward_exact (x : Matrix (Fin nb) (Fin din) ℚ)
    (y : Matrix (Fin nb) (Fin dout) ℚ) (w1 : Matrix (Fin din) (Fin dh) ℚ)
    (w2 : Matrix (Fin dh) (Fin dout) ℚ) :
    (∀ i j, gradW2Mat x y w1 w2 i j =
        ∑ n, hReluMat x w1 n i * (2 * (yPredMat x w1 w2 n j - y n j))) ∧
    (∀ i j, gradW1Mat x y w1 w2 i j =
        ∑ n, x n i *
          (if hMat x w1 n j < 0 then 0
           else ∑ o, 2 * (yPredMat x w1 w2 n o - y n o) * w2 j o)) ∧
    (∀ (E : Matrix (Fin dh) (Fin dout) ℚ) (t : ℚ),
        sseLoss x y w1 (w2 + t • E) =
          sseLoss x y w1 w2 +
            t * (∑ i, ∑ j, gradW2Mat x y w1 w2 i j * E i j) +
            t ^ 2 * (∑ n, ∑ j, ((hReluMat x w1 * E) n j) ^ 2)) := by
  refine ⟨?_, ?_, ?_⟩
  · intro i j
    simp [gradW2Mat, gradYPredMat, Matrix.mul_apply, Matrix.transpose_apply, Matrix.of_apply]
  · intro i j
    simp only [gradW1Mat, gradHMat, gradHReluMat, gradYPredMat, Matrix.mul_apply,
      Matrix.transpose_apply, Matrix.of_apply]
  · intro E t
    have hb : ∀ (n : Fin nb) (j : Fin dout),
        yPredMat x w1 (w2 + t • E) n j =
          yPredMat x w1 w2 n j + t * (hReluMat x w1 * E) n j := by
      intro n j
      simp [yPredMat, Matrix.mul_add, Matrix.mul_smul, Matrix.add_apply,
        Matrix.smul_apply, smul_eq_mul]
    calc ∑ n, ∑ j, (yPredMat x w1 (w2 + t • E) n j - y n j) ^ 2
        = ∑ n, ∑ j,
            ((yPredMat x w1 w2 n j - y n j) ^ 2 +
              t * (2 * (yPredMat x w1 w2 n j - y n j) * (hReluMat x w1 * E) n j) +
              t ^ 2 * ((hReluMat x w1 * E) n j) ^ 2) :=
          Finset.sum_congr rfl fun n _ => Finset.sum_congr rfl fun j _ => by
            rw [hb n j]; ring
      _ = sseLoss x y w1 w2 +
            t * (∑ n, ∑ j, 2 * (yPredMat x w1 w2 n j - y n j) * (hReluMat x w1 * E) n j) +
            t ^ 2 * (∑ n, ∑ j, ((hReluMat x w1 * E) n j) ^ 2) := by
          simp [Finset.sum_add_distrib, Finset.mul_sum, sseLoss]
      _ = sseLoss x y w1 w2 +
            t * (∑ i, ∑ j, gradW2Mat x y w1 w2 i j * E i j) +
            t ^ 2 * (∑ n, ∑ j, ((hReluMat x w1 * E) n j) ^ 2) := by
          rw [gradW2_inner]

end TwoLayer

/-! ## The custom autograd operator `MyReLU` (claim C10)

Embedded from the notebook: `forward` is `input.clamp(min=0)`, and
`backward` is `grad_input = grad_output.clone(); grad_input[input < 0] = 0`. -/

/-- `MyReLU.forward`: the input clamped below at zero, elementwise. -/
def myReLUForward (input : List ℚ) : List ℚ :=
  input.map fun v => max v 0

/-- The masked in-place assignment `g[mask] = 0`: entries of `g` at
positions where the boolean mask holds are set to zero. -/
def maskSetZero (g : List ℚ) (mask : List Bool) : List ℚ :=
  List.zipWith (fun gv m => if m then 0 else gv) g mask

/-- `MyReLU.backward`: a clone of the output gradient with the entries at
positions where the saved input is negative set to zero. -/
def myReLUBackward (input gradOutput : List ℚ) : List ℚ :=
  maskSetZero gradOutput (input.map fun v => decide (v < 0))

theorem myReLUBackward_getD (input : List ℚ) :
    ∀ (g : List ℚ) (k : Nat), k < input.length → k < g.length →
      (myReLUBackward input g).getD k 0 =
        if input.getD k 0 < 0 then 0 else g.getD k 0 := by
  induction input with
  | nil => intro g k hk1 _; exact absurd hk1 (Nat.not_lt_zero k)
  | cons a input ih =>
    intro g k hk1 hk2
    cases g with
    | nil => exact absurd hk2 (Nat.not_lt_zero k)
    | cons b g =>
      cases k with
      | zero => by_cases ha : a < 0 <;> simp [myReLUBackward, maskSetZero, ha]
      | succ k =>
        have hrec := ih g k (Nat.lt_of_succ_lt_succ hk1) (Nat.lt_of_succ_lt_succ hk2)
        simpa [myReLUBackward, maskSetZero] using hrec

/-- Claim C10: `MyReLU.forward` returns the input clamped below at zero,
and `MyReLU.backward` returns the output gradient unchanged at every
position where the saved input is nonnegative (in particular where it is
exactly zero) and zero at every position where the input is negative. -/
theorem c10_myrelu_forward_backward (input gradOutput : List ℚ) (k : Nat)
    (hk1 : k < input.length) (hk2 : k < gradOutput.length) :
    (myReLUForward input).getD k 0 = max (input.getD k 0) 0 ∧
    (0 ≤ input.getD k 0 →
      (myReLUBackward input gradOutput).getD k 0 = gradOutput.getD k 0) ∧
    (input.getD k 0 < 0 → (myReLUBackward input gradOutput).getD k 0 = 0) ∧
    (input.getD k 0 = 0 →
      (myReLUBackward input gradOutput).getD k 0 = gradOutput.getD k 0) := by
  have hbwd := myReLUBackward_getD input gradOutput k hk1 hk2
  refine ⟨?_, ?_, ?_, ?_⟩
  · rw [List.getD_eq_getElem?_getD, List.getD_eq_getElem?_getD,
      myReLUForward, List.getElem?_map]
    rw [List.getElem?_eq_getElem hk1]
    rfl
  · intro h0
    rw [hbwd, if_neg (not_lt.mpr h0)]
  · intro hneg
    rw [hbwd, if_pos hneg]
  · intro h0
    rw [hbwd, if_neg (by rw [h0]; exact lt_irrefl 0)]

/-- Witness for claim C10 at the input `[-1, 0, 2]`, output gradient
`[5, 7, 9]` and position `1`, where the input is exactly zero. -/
theorem c10_myrelu_forward_backward_witness :
    (myReLUForward [-1, 0, 2]).getD 1 0 = max (([-1, 0, 2] : List ℚ).getD 1 0) 0 ∧
    (0 ≤ ([-1, 0, 2] : List ℚ).getD 1 0 →
      (myReLUBackward [-1, 0, 2] [5, 7, 9]).getD 1 0 = ([5, 7, 9] : List ℚ).getD 1 0) ∧
    (([-1, 0, 2] : List ℚ).getD 1 0 < 0 →
      (myReLUBackward [-1, 0, 2] [5, 7, 9]).getD 1 0 = 0) ∧
    (([-1, 0, 2] : List ℚ).getD 1 0 = 0 →
      (myReLUBackward [-1, 0, 2] [5, 7, 9]).getD 1 0 = ([5, 7, 9] : List ℚ).getD 1 0) :=
  c10_myrelu_forward_backward [-1, 0, 2] [5, 7, 9] 1 (by decide) (by decide)

end PytorchExamples
